import Mathlib

/-!
Verification of the `DATA_STORE` module of the sekor-bkc repository
(file `data.js`): a central in-memory article/user store mirrored to a
localStorage-style key-value store, with validation, sanitization and
rollback-on-persist-failure.

The embedding models JavaScript records as association lists from field
names to dynamically typed values.  Lookup returns the LAST binding of a
key, so that list concatenation models both object-literal spread
(`{a, ...b}`, later keys win) and `Object.assign(target, src)` (each own
key of `src` is written over `target`).  A shallow copy (`{...o}`) is the
identity on this value-level representation.  The persistent store holds
the decoded sequences directly; serialization is lossless (JSON), so a
key is modelled as `Option (List Obj)` with `none` standing for an
absent (or unreadable) key.  The outcome of each of the two
`localStorage.setItem` calls, the wall clock, and the random component of
id generation are inputs of the environment `Env`.
-/

/-- A dynamically typed JavaScript value, restricted to the shapes the
data store manipulates.  `vundefined` is the value of an absent property
read (`undefined`); numbers are modelled as integers. -/
inductive JSVal where
  | vundefined
  | vnull
  | vbool (b : Bool)
  | vnum (n : Int)
  | vstr (s : String)
deriving DecidableEq, Repr

/-- A JavaScript object: a finite sequence of field bindings.  Later
bindings shadow earlier ones (see `objGet`). -/
abbrev Obj := List (String × JSVal)

/-- Property read returning the last binding of the key, `none` when the
object has no own property of that name. -/
def objGet (o : Obj) (k : String) : Option JSVal :=
  o.foldl (fun acc e => if e.1 = k then some e.2 else acc) none

/-- `o.hasOwnProperty(k)`. -/
def hasOwn (o : Obj) (k : String) : Bool :=
  (objGet o k).isSome

/-- `o[k]` as evaluated by JavaScript: `undefined` when absent. -/
def jsRead (o : Obj) (k : String) : JSVal :=
  (objGet o k).getD .vundefined

/-- Property write `o[k] = v`.  Appending a binding gives the correct
last-binding-wins lookup; enumeration-order differences are invisible to
`objGet`. -/
def objSet (o : Obj) (k : String) (v : JSVal) : Obj :=
  o ++ [(k, v)]

/-- JavaScript truthiness of a value. -/
def truthy : JSVal → Bool
  | .vundefined => false
  | .vnull => false
  | .vbool b => b
  | .vnum n => n != 0
  | .vstr s => s != ""

/-- Leading decimal digits of a character list, as digit values. -/
def leadingDigits : List Char → List Nat
  | [] => []
  | c :: rest => if c.isDigit then (c.toNat - 48) :: leadingDigits rest else []

/-- Fold a digit list into a natural number. -/
def digitsToNat (ds : List Nat) : Nat :=
  ds.foldl (fun acc d => acc * 10 + d) 0

/-- `parseInt` on a string: after skipping leading whitespace, an
optional sign followed by at least one decimal digit; `none` models
`NaN`.  (The hex `0x` prefix accepted by `parseInt` plays no role in
this codebase.) -/
def jsParseInt (s : String) : Option Int :=
  match s.toList.dropWhile (fun c => c.isWhitespace) with
  | '-' :: rest =>
      let ds := leadingDigits rest
      if ds.isEmpty then none else some (-(digitsToNat ds : Int))
  | '+' :: rest =>
      let ds := leadingDigits rest
      if ds.isEmpty then none else some (digitsToNat ds : Int)
  | rest =>
      let ds := leadingDigits rest
      if ds.isEmpty then none else some (digitsToNat ds : Int)

/-- An id argument as passed by callers: either a number or a string.
`parseInt` on an integral number yields that integer. -/
inductive JSId where
  | num (n : Int)
  | str (s : String)
deriving DecidableEq, Repr

/-- `parseInt(id)` with the `isNaN` guard: `none` is the NaN case. -/
def parseIntArg : JSId → Option Int
  | .num n => some n
  | .str s => jsParseInt s

/-- `str.split('T')[0]` for the ISO-timestamp date extraction
`new Date().toISOString().split('T')[0]`: the first segment of a
single-character split is the prefix before the first T (the whole
string when no T occurs). -/
def isoDatePart (s : String) : String :=
  String.mk (s.toList.takeWhile (fun c => c != 'T'))

/- ### Validators (source: `Validators` in data.js) -/

/-- Required fields checked by `Validators.isValidArticle`. -/
def requiredArticleFields : List String :=
  ["title", "category", "summary", "content", "author", "authorId", "status"]

/-- `Object.values(ARTICLE_STATUS)`. -/
def statusValues : List JSVal :=
  [.vstr "draft", .vstr "review", .vstr "published"]

/-- `Object.values(USER_ROLES)`. -/
def roleValues : List JSVal :=
  [.vstr "admin", .vstr "author", .vstr "editor", .vstr "reader"]

/-- `Validators.isValidArticle`: all required fields are own properties,
the status value is one of the three allowed strings, and `authorId` is
a number.  The `typeof article` guard is discharged by the `Obj` type. -/
def isValidArticle (article : Obj) : Bool :=
  requiredArticleFields.all (fun f => hasOwn article f)
    && statusValues.contains (jsRead article "status")
    && (match jsRead article "authorId" with
        | .vnum _ => true
        | _ => false)

/-- `Validators.isValidUser`. -/
def isValidUser (user : Obj) : Bool :=
  (["id", "name", "email", "role"] : List String).all (fun f => hasOwn user f)
    && roleValues.contains (jsRead user "role")
    && (match jsRead user "id" with
        | .vnum _ => true
        | _ => false)

/-- The allow-list of `Validators.sanitizeArticleUpdates`. -/
def allowedUpdateFields : List String :=
  ["title", "category", "image", "summary", "content",
   "status", "views", "engagement", "publishDate"]

/-- `Validators.sanitizeArticleUpdates`: copy, in allow-list order, each
allow-listed own property of `updates` onto a fresh object. -/
def sanitizeArticleUpdates (updates : Obj) : Obj :=
  allowedUpdateFields.foldl
    (fun sanitized k =>
      match objGet updates k with
      | some v => objSet sanitized k v
      | none => sanitized)
    []

/- ### Id generation (source: `StorageUtils.generateUniqueId`) -/

/-- The `while (existingIds.includes(newId)) newId++` loop, with
explicit fuel.  Each iteration that bumps the id has hit a distinct
element of `existingIds` (the candidates are strictly increasing), so
`existingIds.length + 1` steps always reach a free id. -/
def bumpWhileTaken (existingIds : List JSVal) : Nat → Int → Int
  | 0, newId => newId
  | fuel + 1, newId =>
      if existingIds.contains (.vnum newId) then
        bumpWhileTaken existingIds fuel (newId + 1)
      else newId

/-- `StorageUtils.generateUniqueId`: timestamp-based id with a random
component; `Date.now()` and the random draw are environment inputs. -/
def generateUniqueId (existingIds : List JSVal) (timestamp random : Int) : Int :=
  bumpWhileTaken existingIds (existingIds.length + 1) (timestamp * 10000 + random)

/- ### Seed data (source: `INITIAL_DATA`) -/

/-- `INITIAL_DATA.users`. -/
def initialUsers : List Obj :=
  [
   [("id", .vnum 1), ("name", .vstr "Priya Chatterjee"), ("email", .vstr "priya@kcc.in"),
    ("role", .vstr "author"), ("avatar", .vstr "https://i.pravatar.cc/150?img=1"),
    ("bio", .vstr "Covering Kolkata\x27s heritage & urban development"), ("followers", .vnum 1243)],
   [("id", .vnum 2), ("name", .vstr "Arnab Sen"), ("email", .vstr "arnab@kcc.in"),
    ("role", .vstr "author"), ("avatar", .vstr "https://i.pravatar.cc/150?img=2"),
    ("bio", .vstr "Political correspondent & investigative journalist"), ("followers", .vnum 2156)],
   [("id", .vnum 3), ("name", .vstr "Moumita Roy"), ("email", .vstr "moumita@kcc.in"),
    ("role", .vstr "editor"), ("avatar", .vstr "https://i.pravatar.cc/150?img=3"),
    ("bio", .vstr "Managing Editor focusing on arts & culture"), ("followers", .vnum 876)],
   [("id", .vnum 4), ("name", .vstr "Arijit Mukherjee"), ("email", .vstr "arijit@kcc.in"),
    ("role", .vstr "author"), ("avatar", .vstr "https://i.pravatar.cc/150?img=4"),
    ("bio", .vstr "Food critic & cultural commentator"), ("followers", .vnum 3421)],
   [("id", .vnum 5), ("name", .vstr "Shreya Das"), ("email", .vstr "shreya@kcc.in"),
    ("role", .vstr "author"), ("avatar", .vstr "https://i.pravatar.cc/150?img=5"),
    ("bio", .vstr "Metro correspondent covering local governance"), ("followers", .vnum 987)],
   [("id", .vnum 6), ("name", .vstr "Rahul Bose"), ("email", .vstr "rahul@kcc.in"),
    ("role", .vstr "author"), ("avatar", .vstr "https://i.pravatar.cc/150?img=6"),
    ("bio", .vstr "Culinary economist analyzing food culture & business"), ("followers", .vnum 512)],
   [("id", .vnum 7), ("name", .vstr "Admin User"), ("email", .vstr "admin@kcc.in"),
    ("role", .vstr "admin"), ("avatar", .vstr "https://i.pravatar.cc/150?img=7"),
    ("bio", .vstr "Administrator"), ("followers", .vnum 0)]
  ]

/-- `INITIAL_DATA.articles`. -/
def initialArticles : List Obj :=
  [
   [("id", .vnum 1), ("title", .vstr "The Resurrection of Park Street\x27s Colonial Architecture"),
    ("category", .vstr "Heritage"), ("image", .vstr "https://images.unsplash.com/photo-1582510003544-4d00b7f74220?w=800"),
    ("summary", .vstr "How conservation efforts are bringing new life to Kolkata\x27s iconic colonial buildings while preserving their historical essence."),
    ("content", .vstr "Lorem ipsum dolor sit amet, consectetur adipiscing elit..."),
    ("author", .vstr "Priya Chatterjee"), ("authorId", .vnum 1),
    ("status", .vstr "published"), ("publishDate", .vstr "2024-10-15"),
    ("views", .vnum 1234), ("engagement", .vnum 89)],
   [("id", .vnum 2), ("title", .vstr "আড্ডা in the Digital Age: Can WhatsApp Replace the Chai Shop?"),
    ("category", .vstr "আড্ডা"), ("image", .vstr "https://images.unsplash.com/photo-1559827260-dc66d52bef19?w=800"),
    ("summary", .vstr "Exploring how Kolkata\x27s beloved tradition of casual conversation is adapting to modern technology."),
    ("content", .vstr "Lorem ipsum dolor sit amet, consectetur adipiscing elit..."),
    ("author", .vstr "Arnab Sen"), ("authorId", .vnum 2),
    ("status", .vstr "published"), ("publishDate", .vstr "2024-10-14"),
    ("views", .vnum 2156), ("engagement", .vnum 234)],
   [("id", .vnum 3), ("title", .vstr "Metro Extension Blues: Why South Kolkata Remains Underserved"),
    ("category", .vstr "Metro"), ("image", .vstr "/metro.png"),
    ("summary", .vstr "An investigation into the delays and challenges facing Kolkata\x27s metro expansion plans."),
    ("content", .vstr "Lorem ipsum dolor sit amet, consectetur adipiscing elit..."),
    ("author", .vstr "Rahul Bose"), ("authorId", .vnum 6),
    ("status", .vstr "published"), ("publishDate", .vstr "2024-10-13"),
    ("views", .vnum 876), ("engagement", .vnum 156)],
   [("id", .vnum 4), ("title", .vstr "মাছ-ভাত: The Soul Food Renaissance"),
    ("category", .vstr "মাছ-ভাত"), ("image", .vstr "https://images.unsplash.com/photo-1606491956689-2ea866880c84?w=800"),
    ("summary", .vstr "How young chefs are reinventing traditional Bengali fish and rice dishes for a new generation."),
    ("content", .vstr "Lorem ipsum dolor sit amet, consectetur adipiscing elit..."),
    ("author", .vstr "Arijit Mukherjee"), ("authorId", .vnum 4),
    ("status", .vstr "published"), ("publishDate", .vstr "2024-10-12"),
    ("views", .vnum 3421), ("engagement", .vnum 298)]
  ]

/- ### Store state, persistent store and environment -/

/-- The in-memory state of `DATA_STORE`: the two collections. -/
structure StoreState where
  articles : List Obj
  users : List Obj
deriving DecidableEq, Repr

/-- The persistent key-value store, restricted to the two keys the data
store uses (`kcc_articles`, `kcc_users`).  A key holds the decoded
record sequence; `none` is an absent or unreadable key (the fallback
case of `safeLocalStorageGet`). -/
structure LocalStorage where
  articlesKey : Option (List Obj)
  usersKey : Option (List Obj)
deriving DecidableEq, Repr

/-- Environment inputs of a single call: the outcome of the
`safeLocalStorageSet` on each key (false models a quota / write
failure), `new Date().toISOString()`, and the two inputs of
`generateUniqueId` (`Date.now()` and the random draw, already combined
by the caller only inside `generateUniqueId`). -/
structure Env where
  okArticlesWrite : Bool
  okUsersWrite : Bool
  nowIso : String
  timestamp : Int
  random : Int

/-- `DATA_STORE.saveToLocalStorage`: write the articles key, then the
users key; each write either commits the key or leaves it untouched;
the call reports success only when both writes succeeded.  A failed
first write does not prevent the second. -/
def saveToLocalStorage (env : Env) (s : StoreState) (ls : LocalStorage) :
    Bool × LocalStorage :=
  let ls1 := if env.okArticlesWrite then { ls with articlesKey := some s.articles } else ls
  let ls2 := if env.okUsersWrite then { ls1 with usersKey := some s.users } else ls1
  (env.okArticlesWrite && env.okUsersWrite, ls2)

/-- `DATA_STORE.loadFromLocalStorage`: per key, fall back to the seed
dataset when the key is absent or unreadable; the loaded value is only
checked to be a sequence (which the model's store type guarantees) —
the individual records are NOT validated. -/
def loadFromLocalStorage (ls : LocalStorage) : StoreState :=
  { articles := ls.articlesKey.getD initialArticles,
    users := ls.usersKey.getD initialUsers }

/-- `DATA_STORE.init`: load from the persistent store (the catch branch
is unreachable in the model, where loading is total). -/
def storeInit (ls : LocalStorage) : StoreState :=
  loadFromLocalStorage ls

/-- `DATA_STORE.getArticleById`, returning the position of the found
article instead of the live reference (the functional stand-in for the
reference returned by `this.articles.find`; the reference semantics
itself is studied in the `RefModel` section).  The id argument is
integer-coerced with `parseInt` and the lookup compares `a.id` with the
parsed number under strict equality. -/
def getArticleByIdIdx (s : StoreState) (idArg : JSId) : Option Nat :=
  match parseIntArg idArg with
  | none => none
  | some n => s.articles.findIdx? (fun a => jsRead a "id" == JSVal.vnum n)

/- ### Derived record forms

Named forms of the records the write operations construct, used to state
the case characterizations and claims below.  Each is literally the term
the corresponding operation builds. -/

/-- The article at index `t` (the live article a lookup found). -/
def articleAt (s : StoreState) (t : Nat) : Obj :=
  s.articles.getD t []

/-- The in-place result of `Object.assign(article, sanitized, {updatedAt})`
in `updateArticle`. -/
def assignedUpdate (env : Env) (s : StoreState) (t : Nat) (updates : Obj) : Obj :=
  (articleAt s t ++ sanitizeArticleUpdates updates) ++ [("updatedAt", .vstr env.nowIso)]

/-- The in-place result of the `Object.assign(article, backup)` rollback
in `updateArticle`: the assign restores snapshotted values but deletes
nothing. -/
def rolledBackUpdate (env : Env) (s : StoreState) (t : Nat) (updates : Obj) : Obj :=
  assignedUpdate env s t updates ++ articleAt s t

/-- The article after the status write (and the conditional
`publishDate` auto-set) in `updateArticleStatus`. -/
def statusUpdated (env : Env) (s : StoreState) (t : Nat) (newStatus : JSVal) : Obj :=
  let a1 := objSet (articleAt s t) "status" newStatus
  if newStatus == JSVal.vstr "published" && !truthy (jsRead a1 "publishDate")
  then objSet a1 "publishDate" (.vstr (isoDatePart env.nowIso))
  else a1

/-- The article after the status rollback in `updateArticleStatus`: only
the status write is undone. -/
def statusRolledBack (env : Env) (s : StoreState) (t : Nat) (newStatus : JSVal) : Obj :=
  objSet (statusUpdated env s t newStatus) "status" (jsRead (articleAt s t) "status")

/-- The record `addArticle` constructs. -/
def builtArticle (env : Env) (s : StoreState) (articleData : Obj) : Obj :=
  [("id", .vnum (generateUniqueId (s.articles.map (fun a => jsRead a "id"))
      env.timestamp env.random)),
   ("views", .vnum 0), ("engagement", .vnum 0), ("publishDate", .vnull)]
  ++ articleData
  ++ [("createdAt", .vstr env.nowIso)]

/-- Replace the article at index `t`. -/
def setArticle (s : StoreState) (t : Nat) (a : Obj) : StoreState :=
  { s with articles := s.articles.set t a }

/-- The persistent store after a fully successful save of state `s`. -/
def savedLS (s : StoreState) : LocalStorage :=
  { articlesKey := some s.articles, usersKey := some s.users }

/- ### Write operations -/

/-- `DATA_STORE.addArticle`: validate the input, generate an id, build
the record as the object literal
`{id, views: 0, engagement: 0, publishDate: null, ...articleData,
createdAt}` (spread semantics: later bindings win), push it, persist,
and pop it again when persisting fails.  Returns the stored record (a
reference; `none` models the `null` failure return). -/
def addArticle (env : Env) (s : StoreState) (ls : LocalStorage)
    (articleData : Obj) : Option Obj × StoreState × LocalStorage :=
  if !isValidArticle articleData then (none, s, ls)
  else
    let newArticle := builtArticle env s articleData
    let s1 : StoreState := { s with articles := s.articles ++ [newArticle] }
    let save := saveToLocalStorage env s1 ls
    if save.1 then (some newArticle, s1, save.2)
    else (none, { s1 with articles := s1.articles.dropLast }, save.2)

/-- `DATA_STORE.updateArticle`: coerce the id, look up the live article,
sanitize the updates, snapshot the article (`backup = {...article}`),
mutate it in place with `Object.assign(article, sanitized, {updatedAt})`,
re-validate, persist, and on validation or persist failure roll back
with `Object.assign(article, backup)` — an assign, which restores the
values of snapshotted fields but cannot delete fields the update
introduced. -/
def updateArticle (env : Env) (s : StoreState) (ls : LocalStorage)
    (idArg : JSId) (updates : Obj) : Bool × StoreState × LocalStorage :=
  match parseIntArg idArg with
  | none => (false, s, ls)
  | some n =>
    match getArticleByIdIdx s (.num n) with
    | none => (false, s, ls)
    | some i =>
      if !isValidArticle (assignedUpdate env s i updates) then
        (false, setArticle s i (rolledBackUpdate env s i updates), ls)
      else
        let save := saveToLocalStorage env (setArticle s i (assignedUpdate env s i updates)) ls
        if save.1 then (true, setArticle s i (assignedUpdate env s i updates), save.2)
        else (false, setArticle s i (rolledBackUpdate env s i updates), save.2)

/-- `DATA_STORE.updateArticleStatus`: validate the status value, look the
article up through `getArticleById` (so the id argument IS
integer-coerced), set the status, auto-set `publishDate` to the date
part of the current ISO timestamp when publishing an article whose
`publishDate` is falsy, persist, and on failure restore only the old
status (the auto-set `publishDate` is not reverted). -/
def updateArticleStatus (env : Env) (s : StoreState) (ls : LocalStorage)
    (idArg : JSId) (newStatus : JSVal) : Bool × StoreState × LocalStorage :=
  if !statusValues.contains newStatus then (false, s, ls)
  else
    match getArticleByIdIdx s idArg with
    | none => (false, s, ls)
    | some i =>
      let save := saveToLocalStorage env (setArticle s i (statusUpdated env s i newStatus)) ls
      if save.1 then (true, setArticle s i (statusUpdated env s i newStatus), save.2)
      else (false, setArticle s i (statusRolledBack env s i newStatus), save.2)

/-- `arr.splice(i, 0, x)`: insert `x` at index `i` (appending when `i`
is beyond the end). -/
def spliceInsert : Nat → Obj → List Obj → List Obj
  | 0, x, l => x :: l
  | _ + 1, x, [] => [x]
  | n + 1, x, a :: l => a :: spliceInsert n x l

/-- `DATA_STORE.deleteArticle`: coerce the id, find the index, splice the
record out, persist, and splice the removed record back at its original
index when persisting fails. -/
def deleteArticle (env : Env) (s : StoreState) (ls : LocalStorage)
    (idArg : JSId) : Bool × StoreState × LocalStorage :=
  match parseIntArg idArg with
  | none => (false, s, ls)
  | some n =>
    match s.articles.findIdx? (fun a => jsRead a "id" == JSVal.vnum n) with
    | none => (false, s, ls)
    | some i =>
      let deletedArticle := s.articles.getD i []
      let s1 : StoreState := { s with articles := s.articles.eraseIdx i }
      let save := saveToLocalStorage env s1 ls
      if save.1 then (true, s1, save.2)
      else (false, { s1 with articles := spliceInsert i deletedArticle s1.articles }, save.2)

/-- An import payload: `data.articles` / `data.users` with `none` for an
absent (falsy) field; the whole argument is optional for a falsy
`data`. -/
structure ImportPayload where
  articles : Option (List Obj)
  users : Option (List Obj)
deriving DecidableEq, Repr

/-- `DATA_STORE.importData`: require both collections, validate every
record of both before touching any state, replace the collections
wholesale, persist, and restore the snapshot when persisting fails. -/
def importData (env : Env) (s : StoreState) (ls : LocalStorage)
    (data : Option ImportPayload) : Bool × StoreState × LocalStorage :=
  match data with
  | none => (false, s, ls)
  | some d =>
    match d.articles, d.users with
    | some arts, some usrs =>
        if !arts.all isValidArticle || !usrs.all isValidUser then (false, s, ls)
        else
          let backup := s
          let s1 : StoreState := { articles := arts, users := usrs }
          let save := saveToLocalStorage env s1 ls
          if save.1 then (true, s1, save.2)
          else (false, backup, save.2)
    | _, _ => (false, s, ls)

/-- `DATA_STORE.exportData` (value level): the current in-memory
collections together with the export timestamp and version.  The
reference level of this operation is studied in the `RefModel`
section. -/
def exportData (env : Env) (s : StoreState) : List Obj × List Obj × String × String :=
  (s.articles, s.users, env.nowIso, "1.0")

/- ### The five write operations as one dispatcher -/

/-- One write operation of the public mutation surface. -/
inductive WriteOp where
  | add (articleData : Obj)
  | upd (idArg : JSId) (updates : Obj)
  | updStatus (idArg : JSId) (newStatus : JSVal)
  | del (idArg : JSId)
  | imp (data : Option ImportPayload)

/-- Run a write operation; the Bool is the success of the call
(`addArticle` succeeds when it returns a record). -/
def runWriteOp (env : Env) (s : StoreState) (ls : LocalStorage) :
    WriteOp → Bool × StoreState × LocalStorage
  | .add d =>
      let r := addArticle env s ls d
      (r.1.isSome, r.2)
  | .upd i u => updateArticle env s ls i u
  | .updStatus i st => updateArticleStatus env s ls i st
  | .del i => deleteArticle env s ls i
  | .imp d => importData env s ls d

/- ### Reference-level model of the read boundary

`this.articles.find(...)` returns a live reference into the internal
array, `exportData` returns the internal arrays themselves, and
`addArticle` returns the pushed record.  To express what mutating such
a returned value does to the store, this model makes the heap explicit:
article records live in a heap addressed by index, and the internal
`articles` array is a list of addresses. -/

namespace RefModel

/-- Store state with an explicit record heap. -/
structure RefState where
  heap : List Obj
  articleRefs : List Nat
  userRefs : List Nat
deriving DecidableEq, Repr

/-- Dereference an address. -/
def readRef (heap : List Obj) (r : Nat) : Obj :=
  heap.getD r []

/-- The record contents of the store's internal article collection. -/
def viewArticles (s : RefState) : List Obj :=
  s.articleRefs.map (readRef s.heap)

/-- `DATA_STORE.getArticleById` at the reference level: the returned
value is the address held in the internal array, not a copy of the
record. -/
def getArticleById (s : RefState) (idArg : JSId) : Option Nat :=
  match parseIntArg idArg with
  | none => none
  | some n => s.articleRefs.find? (fun r => jsRead (readRef s.heap r) "id" == JSVal.vnum n)

/-- `DATA_STORE.exportData` at the reference level: the returned
structure holds the internal arrays themselves (`articles: this.articles`),
not copies. -/
def exportData (s : RefState) (nowIso : String) :
    List Nat × List Nat × String × String :=
  (s.articleRefs, s.userRefs, nowIso, "1.0")

/-- A caller mutating a record it was handed: `obj[k] = v` through the
reference `r`. -/
def setRefField (s : RefState) (r : Nat) (k : String) (v : JSVal) : RefState :=
  { s with heap := s.heap.set r (objSet (readRef s.heap r) k v) }

end RefModel

/- ### Concrete fixtures used by counterexamples and witnesses -/

/-- A valid draft article with no `image`, no `publishDate` and no
`updatedAt` field. -/
def exArticle : Obj :=
  [("id", .vnum 1), ("title", .vstr "Old title"), ("category", .vstr "Heritage"),
   ("summary", .vstr "S"), ("content", .vstr "C"), ("author", .vstr "A"),
   ("authorId", .vnum 1), ("status", .vstr "draft")]

/-- A store holding that one article. -/
def exState : StoreState := { articles := [exArticle], users := [] }

/-- A persistent store agreeing with `exState` on both keys. -/
def exAgreeLS : LocalStorage := { articlesKey := some [exArticle], usersKey := some [] }

/-- Environment in which both key writes succeed. -/
def envOkOk : Env :=
  { okArticlesWrite := true, okUsersWrite := true,
    nowIso := "2026-10-11T08:00:00.000Z", timestamp := 1, random := 0 }

/-- Environment in which the articles-key write succeeds and the
users-key write fails. -/
def envOkFail : Env := { envOkOk with okUsersWrite := false }

/-- Environment in which both key writes fail. -/
def envFailFail : Env := { envOkOk with okArticlesWrite := false, okUsersWrite := false }

/-- A valid input for `addArticle`, carrying no system fields. -/
def exNewData : Obj :=
  [("title", .vstr "New"), ("category", .vstr "Metro"), ("summary", .vstr "S2"),
   ("content", .vstr "C2"), ("author", .vstr "B"), ("authorId", .vnum 2),
   ("status", .vstr "draft")]

/-- A valid `addArticle` input that additionally carries an `id` field. -/
def exDataWithId : Obj := exNewData ++ [("id", .vnum 999)]

/-- A reference-model store holding `exArticle` at heap address 0. -/
def exRefState : RefModel.RefState :=
  { heap := [exArticle], articleRefs := [0], userRefs := [] }
/- ### Lookup lemmas for the association-list object model -/

theorem objGet_foldl_step (o : Obj) (k : String) (init : Option JSVal) :
    o.foldl (fun acc e => if e.1 = k then some e.2 else acc) init =
      match objGet o k with
      | some v => some v
      | none => init := by
  induction o generalizing init with
  | nil => simp [objGet]
  | cons hd tl ih =>
      simp only [List.foldl_cons, objGet] at *
      rw [ih, ih (if hd.1 = k then some hd.2 else none)]
      cases h : tl.foldl (fun acc e => if e.1 = k then some e.2 else acc)
          (none : Option JSVal)
      · simp only []
        split <;> rfl
      · simp

theorem objGet_append (t s : Obj) (k : String) :
    objGet (t ++ s) k =
      match objGet s k with
      | some v => some v
      | none => objGet t k := by
  simp only [objGet, List.foldl_append]
  exact objGet_foldl_step s k _

theorem objGet_append_of_some {s : Obj} {k : String} {v : JSVal} (t : Obj)
    (h : objGet s k = some v) : objGet (t ++ s) k = some v := by
  rw [objGet_append, h]

theorem objGet_append_of_none {s : Obj} {k : String} (t : Obj)
    (h : objGet s k = none) : objGet (t ++ s) k = objGet t k := by
  rw [objGet_append, h]

theorem objGet_set_self (o : Obj) (k : String) (v : JSVal) :
    objGet (objSet o k v) k = some v := by
  rw [objSet, objGet_append]
  simp [objGet]

theorem objGet_set_ne (o : Obj) {k k' : String} (v : JSVal) (h : k ≠ k') :
    objGet (objSet o k v) k' = objGet o k' := by
  rw [objSet, objGet_append]
  simp [objGet, h]

theorem hasOwn_append (t s : Obj) (k : String) :
    hasOwn (t ++ s) k = (hasOwn t k || hasOwn s k) := by
  simp only [hasOwn, objGet_append]
  cases h : objGet s k <;> simp


/- ### Claim C1 -/

/-- C1 counterexample: the claim "for every outcome of the two key
writes, the in-memory and persisted collections agree when the call
returns" fails at a concrete call: `addArticle` on a one-article store
in the environment where the articles-key write succeeds and the
users-key write fails returns failure with the in-memory collection
rolled back to one article — yet the persisted articles key now holds
two records (the first `setItem` is never undone). -/
theorem c1_mixed_outcome_divergence :
    (addArticle envOkFail exState exAgreeLS exNewData).1 = none
    ∧ (addArticle envOkFail exState exAgreeLS exNewData).2.1.articles.length = 1
    ∧ ((addArticle envOkFail exState exAgreeLS exNewData).2.2.articlesKey.getD []).length = 2
    ∧ (addArticle envOkFail exState exAgreeLS exNewData).2.2.articlesKey
        ≠ some (addArticle envOkFail exState exAgreeLS exNewData).2.1.articles := by
  refine ⟨rfl, rfl, rfl, ?_⟩
  decide

/- ### Claim C2 -/

/-- C2: the code stores the caller-supplied `id`, not the freshly
generated one.  With an empty store, timestamp 1 and random draw 0 the
generated id is 10000, but `addArticle` on a valid input that carries
`id: 999` returns and stores a record whose `id` is 999: the
`...articleData` spread in the record literal overrides the generated
`id` field (while `createdAt`, written after the spread, stays
system-assigned). -/
theorem c2_caller_id_overrides_generated :
    generateUniqueId [] 1 0 = 10000
    ∧ (addArticle envOkOk { articles := [], users := [] }
          { articlesKey := none, usersKey := none } exDataWithId).1.map
        (fun a => objGet a "id") = some (some (.vnum 999))
    ∧ objGet ((addArticle envOkOk { articles := [], users := [] }
          { articlesKey := none, usersKey := none } exDataWithId).2.1.articles.getD 0 [])
        "id" = some (.vnum 999)
    ∧ objGet ((addArticle envOkOk { articles := [], users := [] }
          { articlesKey := none, usersKey := none } exDataWithId).2.1.articles.getD 0 [])
        "createdAt" = some (.vstr envOkOk.nowIso) := by
  exact ⟨rfl, rfl, rfl, rfl⟩

/- ### Claim C3 -/

/-- C3 counterexample: the state immediately after initialization need
not satisfy the article shape check.  Loading from a persistent store
whose articles key holds the sequence `[{}]` (a sequence, so the
`Array.isArray` guard passes) installs the empty record, which fails
`isValidArticle` — the load path never validates individual records. -/
theorem c3_init_loads_invalid_article :
    (storeInit { articlesKey := some [[]], usersKey := none }).articles = [[]]
    ∧ isValidArticle [] = false := by
  exact ⟨rfl, rfl⟩

/- ### Claim C4 -/

/-- C4 counterexample: the record returned by `getArticleById` is not an
independent copy.  In the reference model, looking up id 1 returns heap
address 0 — the store's own reference — and a caller writing the
`title` field through that reference changes the store's internal
article collection. -/
theorem c4_returned_record_mutation_changes_store :
    RefModel.getArticleById exRefState (.num 1) = some 0
    ∧ RefModel.viewArticles (RefModel.setRefField exRefState 0 "title" (.vstr "HACK"))
        ≠ RefModel.viewArticles exRefState := by
  refine ⟨rfl, ?_⟩
  decide

/- ### Claim C5 -/

/-- C5 counterexample: after a persist-failure rollback the targeted
record can hold a field it did not have before the call.  `exArticle`
has no `image` field; `updateArticle` with `{image: "x.png"}` in an
environment where persisting fails returns failure, yet afterwards the
record's `image` field exists and holds the new value — the
`Object.assign(article, backup)` rollback cannot delete fields. -/
theorem c5_rollback_keeps_introduced_field :
    hasOwn exArticle "image" = false
    ∧ (updateArticle envFailFail exState exAgreeLS (.num 1)
          [("image", .vstr "x.png")]).1 = false
    ∧ objGet ((updateArticle envFailFail exState exAgreeLS (.num 1)
          [("image", .vstr "x.png")]).2.1.articles.getD 0 []) "image"
        = some (.vstr "x.png") := by
  exact ⟨rfl, rfl, rfl⟩

/- ### Claim C6 -/

/-- C6 counterexample: the `updateArticleStatus` lookup IS
integer-coerced.  The stored article has the number 1 as its id, yet the
call with the string "1" finds it and succeeds, where the claim says it
finds no article and returns failure. -/
theorem c6_string_id_lookup_succeeds :
    objGet exArticle "id" = some (.vnum 1)
    ∧ (updateArticleStatus envOkOk exState exAgreeLS (.str "1") (.vstr "review")).1
        = true := by
  exact ⟨rfl, rfl⟩

/-- C6 amended: all three id-taking mutation paths integer-coerce their
id argument.  `updateArticleStatus` delegates its lookup to
`getArticleById`, which applies `parseInt`, exactly as `updateArticle`
and `deleteArticle` do: whenever the argument parses to the integer
`n`, each call behaves identically to the call with the number `n`. -/
theorem c6_lookup_integer_coercion (env : Env) (s : StoreState) (ls : LocalStorage)
    (idArg : JSId) (n : Int) (h : parseIntArg idArg = some n) :
    (∀ newStatus, updateArticleStatus env s ls idArg newStatus
        = updateArticleStatus env s ls (.num n) newStatus)
    ∧ (∀ updates, updateArticle env s ls idArg updates
        = updateArticle env s ls (.num n) updates)
    ∧ deleteArticle env s ls idArg = deleteArticle env s ls (.num n) := by
  refine ⟨fun newStatus => ?_, fun updates => ?_, ?_⟩ <;>
    · simp only [updateArticleStatus, updateArticle, deleteArticle, getArticleByIdIdx]
      rw [h]
      rfl

/-- C6 amended, witness: the string "1" parses to 1 and the status call
with it equals the call with the number 1. -/
theorem c6_lookup_integer_coercion_witness :
    parseIntArg (.str "1") = some 1
    ∧ updateArticleStatus envOkOk exState exAgreeLS (.str "1") (.vstr "review")
        = updateArticleStatus envOkOk exState exAgreeLS (.num 1) (.vstr "review") := by
  exact ⟨rfl,
    (c6_lookup_integer_coercion envOkOk exState exAgreeLS (.str "1") 1 rfl).1
      (.vstr "review")⟩

/- ### Claim C10 -/

/-- C10: `importData` is all-or-nothing with respect to validation.  For
every store state, persistent-store state and environment, an import
payload carrying both collections in which some article fails the
article validator or some user fails the user validator makes the call
return failure with the in-memory collections and the persistent store
exactly as before the call — validation happens before any state is
touched. -/
theorem c10_import_all_or_nothing (env : Env) (s : StoreState) (ls : LocalStorage)
    (d : ImportPayload) (arts usrs : List Obj)
    (ha : d.articles = some arts) (hu : d.users = some usrs)
    (hbad : (∃ a ∈ arts, isValidArticle a = false)
      ∨ (∃ u ∈ usrs, isValidUser u = false)) :
    importData env s ls (some d) = (false, s, ls) := by
  have hcond : (!arts.all isValidArticle || !usrs.all isValidUser) = true := by
    rcases hbad with ⟨a, hmem, hv⟩ | ⟨u, hmem, hv⟩
    · have : arts.all isValidArticle = false := by
        simp only [List.all_eq_false]
        exact ⟨a, hmem, by simp [hv]⟩
      simp [this]
    · have : usrs.all isValidUser = false := by
        simp only [List.all_eq_false]
        exact ⟨u, hmem, by simp [hv]⟩
      simp [this]
  simp [importData, ha, hu, hcond]

/-- C10 witness: importing one invalid article (the empty record) over
the example store changes nothing and reports failure. -/
theorem c10_import_all_or_nothing_witness :
    importData envOkOk exState exAgreeLS
        (some { articles := some [[]], users := some [] }) = (false, exState, exAgreeLS) := by
  exact c10_import_all_or_nothing envOkOk exState exAgreeLS
    { articles := some [[]], users := some [] } [[]] [] rfl rfl
    (Or.inl ⟨[], by simp, rfl⟩)

/- ### Case characterizations of the write operations -/

theorem findIdx_bound_of_findIdx?_eq_some {l : List Obj} {p : Obj → Bool} {t : Nat}
    (h : l.findIdx? p = some t) : t < l.length := by
  obtain ⟨h1, -, -⟩ := List.findIdx?_eq_some_iff_getElem.mp h
  exact h1

theorem updateArticle_cases (env : Env) (s : StoreState) (ls : LocalStorage)
    (idArg : JSId) (updates : Obj) :
    updateArticle env s ls idArg updates = (false, s, ls)
    ∨ ∃ t, getArticleByIdIdx s idArg = some t ∧ t < s.articles.length ∧
      ((isValidArticle (assignedUpdate env s t updates) = false
        ∧ updateArticle env s ls idArg updates
          = (false, setArticle s t (rolledBackUpdate env s t updates), ls))
      ∨ (isValidArticle (assignedUpdate env s t updates) = true
        ∧ env.okArticlesWrite = true ∧ env.okUsersWrite = true
        ∧ updateArticle env s ls idArg updates
          = (true, setArticle s t (assignedUpdate env s t updates),
             savedLS (setArticle s t (assignedUpdate env s t updates))))
      ∨ (isValidArticle (assignedUpdate env s t updates) = true
        ∧ (env.okArticlesWrite && env.okUsersWrite) = false
        ∧ updateArticle env s ls idArg updates
          = (false, setArticle s t (rolledBackUpdate env s t updates),
             (saveToLocalStorage env (setArticle s t (assignedUpdate env s t updates)) ls).2))) := by
  cases hp : parseIntArg idArg with
  | none =>
      left
      simp [updateArticle, hp]
  | some n =>
      have hnum : parseIntArg (JSId.num n) = some n := rfl
      cases hf : s.articles.findIdx? (fun a => jsRead a "id" == JSVal.vnum n) with
      | none =>
          left
          simp [updateArticle, getArticleByIdIdx, hnum, hp, hf]
      | some t =>
          right
          refine ⟨t, by simp [getArticleByIdIdx, hp, hf],
            findIdx_bound_of_findIdx?_eq_some hf, ?_⟩
          by_cases hv : isValidArticle (assignedUpdate env s t updates)
          · cases hA : env.okArticlesWrite
            · right; right
              refine ⟨hv, by simp [hA], ?_⟩
              simp [updateArticle, getArticleByIdIdx, hnum, hp, hf, hv,
                saveToLocalStorage, hA]
            · cases hU : env.okUsersWrite
              · right; right
                refine ⟨hv, by simp [hA, hU], ?_⟩
                simp [updateArticle, getArticleByIdIdx, hnum, hp, hf, hv,
                  saveToLocalStorage, hA, hU]
              · right; left
                refine ⟨hv, rfl, rfl, ?_⟩
                simp [updateArticle, getArticleByIdIdx, hnum, hp, hf, hv,
                  saveToLocalStorage, hA, hU, savedLS, setArticle]
          · left
            refine ⟨by simpa using hv, ?_⟩
            simp [updateArticle, getArticleByIdIdx, hnum, hp, hf, hv]

theorem getArticleByIdIdx_bound {s : StoreState} {idArg : JSId} {t : Nat}
    (h : getArticleByIdIdx s idArg = some t) : t < s.articles.length := by
  rw [getArticleByIdIdx] at h
  cases hp : parseIntArg idArg with
  | none => rw [hp] at h; cases h
  | some n =>
      rw [hp] at h
      exact findIdx_bound_of_findIdx?_eq_some h

theorem updateArticleStatus_cases (env : Env) (s : StoreState) (ls : LocalStorage)
    (idArg : JSId) (newStatus : JSVal) :
    ((statusValues.contains newStatus = false ∨ getArticleByIdIdx s idArg = none)
      ∧ updateArticleStatus env s ls idArg newStatus = (false, s, ls))
    ∨ ∃ t, statusValues.contains newStatus = true
      ∧ getArticleByIdIdx s idArg = some t ∧ t < s.articles.length ∧
      ((env.okArticlesWrite = true ∧ env.okUsersWrite = true
        ∧ updateArticleStatus env s ls idArg newStatus
          = (true, setArticle s t (statusUpdated env s t newStatus),
             savedLS (setArticle s t (statusUpdated env s t newStatus))))
      ∨ ((env.okArticlesWrite && env.okUsersWrite) = false
        ∧ updateArticleStatus env s ls idArg newStatus
          = (false, setArticle s t (statusRolledBack env s t newStatus),
             (saveToLocalStorage env (setArticle s t (statusUpdated env s t newStatus)) ls).2))) := by
  by_cases hs : statusValues.contains newStatus
  · have hmem : newStatus ∈ statusValues := by simpa using hs
    cases hf : getArticleByIdIdx s idArg with
    | none =>
        left
        refine ⟨Or.inr rfl, ?_⟩
        simp [updateArticleStatus, hs, hmem, hf]
    | some t =>
        right
        refine ⟨t, hs, rfl, getArticleByIdIdx_bound hf, ?_⟩
        cases hA : env.okArticlesWrite
        · right
          refine ⟨by simp [hA], ?_⟩
          simp [updateArticleStatus, hs, hmem, hf, saveToLocalStorage, hA]
        · cases hU : env.okUsersWrite
          · right
            refine ⟨by simp [hA, hU], ?_⟩
            simp [updateArticleStatus, hs, hmem, hf, saveToLocalStorage, hA, hU]
          · left
            refine ⟨rfl, rfl, ?_⟩
            simp [updateArticleStatus, hs, hmem, hf, saveToLocalStorage, hA, hU, savedLS, setArticle]
  · have hmem2 : newStatus ∉ statusValues := by simpa using hs
    left
    refine ⟨Or.inl (by simpa using hs), ?_⟩
    simp [updateArticleStatus, hs, hmem2]

theorem addArticle_cases (env : Env) (s : StoreState) (ls : LocalStorage) (d : Obj) :
    (isValidArticle d = false ∧ addArticle env s ls d = (none, s, ls))
    ∨ (isValidArticle d = true ∧ env.okArticlesWrite = true ∧ env.okUsersWrite = true
       ∧ addArticle env s ls d
         = (some (builtArticle env s d),
            { s with articles := s.articles ++ [builtArticle env s d] },
            savedLS { s with articles := s.articles ++ [builtArticle env s d] }))
    ∨ (isValidArticle d = true ∧ (env.okArticlesWrite && env.okUsersWrite) = false
       ∧ addArticle env s ls d
         = (none, s,
            (saveToLocalStorage env
              { s with articles := s.articles ++ [builtArticle env s d] } ls).2)) := by
  by_cases hv : isValidArticle d
  · cases hA : env.okArticlesWrite
    · right; right
      refine ⟨hv, by simp [hA], ?_⟩
      simp [addArticle, hv, saveToLocalStorage, hA]
    · cases hU : env.okUsersWrite
      · right; right
        refine ⟨hv, by simp [hA, hU], ?_⟩
        simp [addArticle, hv, saveToLocalStorage, hA, hU]
      · right; left
        refine ⟨hv, rfl, rfl, ?_⟩
        simp [addArticle, hv, saveToLocalStorage, hA, hU, savedLS]
  · left
    refine ⟨by simpa using hv, ?_⟩
    simp [addArticle, hv]

theorem spliceInsert_eraseIdx (l : List Obj) (t : Nat) (h : t < l.length) :
    spliceInsert t (l[t]?.getD []) (l.eraseIdx t) = l := by
  induction l generalizing t with
  | nil => simp at h
  | cons a tl ih =>
      cases t with
      | zero => simp [spliceInsert]
      | succ t =>
          simp only [List.eraseIdx_cons_succ, spliceInsert, List.getElem?_cons_succ]
          rw [ih t (by simpa using h)]

theorem deleteArticle_cases (env : Env) (s : StoreState) (ls : LocalStorage)
    (idArg : JSId) :
    deleteArticle env s ls idArg = (false, s, ls)
    ∨ ∃ t, t < s.articles.length ∧
      ((env.okArticlesWrite = true ∧ env.okUsersWrite = true
        ∧ deleteArticle env s ls idArg
          = (true, { s with articles := s.articles.eraseIdx t },
             savedLS { s with articles := s.articles.eraseIdx t }))
      ∨ ((env.okArticlesWrite && env.okUsersWrite) = false
        ∧ deleteArticle env s ls idArg
          = (false, s,
             (saveToLocalStorage env { s with articles := s.articles.eraseIdx t } ls).2))) := by
  cases hp : parseIntArg idArg with
  | none =>
      left
      simp [deleteArticle, hp]
  | some n =>
      cases hf : s.articles.findIdx? (fun a => jsRead a "id" == JSVal.vnum n) with
      | none =>
          left
          simp [deleteArticle, hp, hf]
      | some t =>
          right
          have hlen := findIdx_bound_of_findIdx?_eq_some hf
          refine ⟨t, hlen, ?_⟩
          cases hA : env.okArticlesWrite
          · right
            refine ⟨by simp [hA], ?_⟩
            simp [deleteArticle, hp, hf, saveToLocalStorage, hA,
              spliceInsert_eraseIdx s.articles t hlen]
          · cases hU : env.okUsersWrite
            · right
              refine ⟨by simp [hA, hU], ?_⟩
              simp [deleteArticle, hp, hf, saveToLocalStorage, hA, hU,
                spliceInsert_eraseIdx s.articles t hlen]
            · left
              refine ⟨rfl, rfl, ?_⟩
              simp [deleteArticle, hp, hf, saveToLocalStorage, hA, hU, savedLS]

theorem importData_cases (env : Env) (s : StoreState) (ls : LocalStorage)
    (data : Option ImportPayload) :
    importData env s ls data = (false, s, ls)
    ∨ ∃ arts usrs, data = some { articles := some arts, users := some usrs }
      ∧ arts.all isValidArticle = true ∧ usrs.all isValidUser = true ∧
      ((env.okArticlesWrite = true ∧ env.okUsersWrite = true
        ∧ importData env s ls data
          = (true, { articles := arts, users := usrs },
             savedLS { articles := arts, users := usrs }))
      ∨ ((env.okArticlesWrite && env.okUsersWrite) = false
        ∧ importData env s ls data
          = (false, s,
             (saveToLocalStorage env { articles := arts, users := usrs } ls).2))) := by
  cases data with
  | none => left; simp [importData]
  | some d =>
      obtain ⟨da, du⟩ := d
      cases da with
      | none => left; simp [importData]
      | some arts =>
          cases du with
          | none => left; simp [importData]
          | some usrs =>
              by_cases hva : arts.all isValidArticle
              · by_cases hvu : usrs.all isValidUser
                · right
                  refine ⟨arts, usrs, rfl, hva, hvu, ?_⟩
                  cases hA : env.okArticlesWrite
                  · right
                    refine ⟨by simp [hA], ?_⟩
                    simp [importData, hva, hvu, saveToLocalStorage, hA]
                  · cases hU : env.okUsersWrite
                    · right
                      refine ⟨by simp [hA, hU], ?_⟩
                      simp [importData, hva, hvu, saveToLocalStorage, hA, hU]
                    · left
                      refine ⟨rfl, rfl, ?_⟩
                      simp [importData, hva, hvu, saveToLocalStorage, hA, hU, savedLS]
                · left
                  simp [importData, hva, hvu]
              · left
                simp [importData, hva]

/- ### Sanitization lookup lemmas -/

theorem sanitize_foldl_objGet_none (u : Obj) (k : String) :
    ∀ (l : List String) (acc : Obj), k ∉ l → objGet acc k = none →
      objGet (l.foldl (fun sanitized k2 =>
        match objGet u k2 with
        | some v => objSet sanitized k2 v
        | none => sanitized) acc) k = none := by
  intro l
  induction l with
  | nil => intro acc _ hacc; exact hacc
  | cons hd tl ih =>
      intro acc hk hacc
      have hne : hd ≠ k := fun h => hk (h ▸ List.mem_cons_self hd tl)
      have hk2 : k ∉ tl := fun h => hk (List.mem_cons_of_mem hd h)
      simp only [List.foldl_cons]
      refine ih _ hk2 ?_
      cases hget : objGet u hd with
      | none => simp only [hget]; exact hacc
      | some v =>
          simp only [hget]
          rw [objGet_set_ne acc v hne]
          exact hacc

theorem sanitize_objGet_not_allowed (u : Obj) {k : String}
    (hk : k ∉ allowedUpdateFields) :
    objGet (sanitizeArticleUpdates u) k = none := by
  rw [sanitizeArticleUpdates]
  exact sanitize_foldl_objGet_none u k allowedUpdateFields [] hk rfl

theorem objGet_assignedUpdate_not_allowed (env : Env) (s : StoreState) (t : Nat)
    (updates : Obj) {k : String} (hk : k ∉ allowedUpdateFields)
    (hk2 : k ≠ "updatedAt") :
    objGet (assignedUpdate env s t updates) k = objGet (articleAt s t) k := by
  have h1 : objGet ([("updatedAt", JSVal.vstr env.nowIso)] : Obj) k = none := by
    simp only [objGet, List.foldl_cons, List.foldl_nil]
    rw [if_neg (fun h => hk2 h.symm)]
  rw [assignedUpdate, objGet_append_of_none _ h1,
    objGet_append_of_none _ (sanitize_objGet_not_allowed updates hk)]

/- ### Claim C9 -/

/-- C9: a completed successful `updateArticle` changes, on every stored
article, no field outside the allow-list {title, category, image,
summary, content, status, views, engagement, publishDate} and
`updatedAt`.  In particular `id`, `author`, `authorId` and `createdAt`
(none of which are in the allow-list) are never altered through this
path, and every supplied key outside the allow-list is dropped. -/
theorem c9_update_frame (env : Env) (s : StoreState) (ls : LocalStorage)
    (idArg : JSId) (updates : Obj)
    (hok : (updateArticle env s ls idArg updates).1 = true)
    (i : Nat) (a a2 : Obj)
    (ha : s.articles[i]? = some a)
    (ha2 : (updateArticle env s ls idArg updates).2.1.articles[i]? = some a2)
    (k : String) (hk : k ∉ allowedUpdateFields) (hk2 : k ≠ "updatedAt") :
    objGet a2 k = objGet a k := by
  rcases updateArticle_cases env s ls idArg updates with h | ⟨t, hidx, hlen, hcase⟩
  · rw [h] at ha2
    rw [ha] at ha2
    cases ha2
    rfl
  · rcases hcase with ⟨hv, heq⟩ | ⟨hv, hA, hU, heq⟩ | ⟨hv, hfail, heq⟩
    · rw [heq] at hok
      cases hok
    · rw [heq] at ha2
      by_cases hit : t = i
      · subst hit
        rw [show (true, setArticle s t (assignedUpdate env s t updates),
              savedLS (setArticle s t (assignedUpdate env s t updates))).2.1
            = setArticle s t (assignedUpdate env s t updates) from rfl,
          setArticle] at ha2
        rw [show ({ s with articles := s.articles.set t (assignedUpdate env s t updates) }
            : StoreState).articles = s.articles.set t (assignedUpdate env s t updates)
            from rfl] at ha2
        rw [List.getElem?_set_self hlen] at ha2
        cases ha2
        have haa : articleAt s t = a := by
          rw [articleAt, List.getD_eq_getElem?_getD, ha]
          rfl
        rw [objGet_assignedUpdate_not_allowed env s t updates hk hk2, haa]
      · rw [show (true, setArticle s t (assignedUpdate env s t updates),
              savedLS (setArticle s t (assignedUpdate env s t updates))).2.1
            = setArticle s t (assignedUpdate env s t updates) from rfl,
          setArticle] at ha2
        rw [show ({ s with articles := s.articles.set t (assignedUpdate env s t updates) }
            : StoreState).articles = s.articles.set t (assignedUpdate env s t updates)
            from rfl] at ha2
        rw [List.getElem?_set, if_neg hit] at ha2
        rw [ha] at ha2
        cases ha2
        rfl
    · rw [heq] at hok
      cases hok

/-- C9 witness: a concrete successful update with an `evil` key; the
`evil` field of the stored record is unchanged (absent). -/
theorem c9_update_frame_witness :
    (updateArticle envOkOk exState exAgreeLS (JSId.num 1)
        [("title", JSVal.vstr "New"), ("evil", JSVal.vstr "x")]).1 = true
    ∧ objGet ((updateArticle envOkOk exState exAgreeLS (JSId.num 1)
        [("title", JSVal.vstr "New"), ("evil", JSVal.vstr "x")]).2.1.articles[0]?.getD [])
        "evil" = objGet exArticle "evil" := by
  refine ⟨rfl, ?_⟩
  exact c9_update_frame envOkOk exState exAgreeLS (JSId.num 1)
    [("title", JSVal.vstr "New"), ("evil", JSVal.vstr "x")] rfl 0 exArticle
    ((updateArticle envOkOk exState exAgreeLS (JSId.num 1)
        [("title", JSVal.vstr "New"), ("evil", JSVal.vstr "x")]).2.1.articles[0]?.getD [])
    rfl (by rfl) "evil" (by decide) (by decide)

/-- C5 amended: if persisting fails, `updateArticle` returns failure and
every field the targeted record had before the call is restored to its
exact pre-call value — but fields the update introduced (such as
`updatedAt`, or an `image` the record did not have) are NOT removed:
the `Object.assign(article, backup)` rollback cannot delete keys. -/
theorem c5_persist_failure_restores_preexisting (env : Env) (s : StoreState)
    (ls : LocalStorage) (idArg : JSId) (updates : Obj)
    (hsave : (env.okArticlesWrite && env.okUsersWrite) = false) :
    (updateArticle env s ls idArg updates).1 = false
    ∧ ∀ (i : Nat) (a a2 : Obj), s.articles[i]? = some a →
        (updateArticle env s ls idArg updates).2.1.articles[i]? = some a2 →
        ∀ k, hasOwn a k = true → objGet a2 k = objGet a k := by
  rcases updateArticle_cases env s ls idArg updates with h | ⟨t, hidx, hlen, hcase⟩
  · rw [h]
    refine ⟨rfl, ?_⟩
    intro i a a2 ha ha2 k _
    dsimp only at ha2
    rw [ha] at ha2
    cases ha2
    rfl
  · rcases hcase with ⟨hv, heq⟩ | ⟨hv, hA, hU, heq⟩ | ⟨hv, hfail, heq⟩
    · rw [heq]
      refine ⟨rfl, ?_⟩
      intro i a a2 ha ha2 k hasK
      dsimp only [setArticle] at ha2
      by_cases hit : t = i
      · subst hit
        rw [List.getElem?_set_self hlen] at ha2
        cases ha2
        have haa : articleAt s t = a := by
          rw [articleAt, List.getD_eq_getElem?_getD, ha]
          rfl
        simp only [hasOwn] at hasK
        obtain ⟨v, hvs⟩ := Option.isSome_iff_exists.mp hasK
        rw [rolledBackUpdate, haa, objGet_append_of_some _ hvs, hvs]
      · rw [List.getElem?_set, if_neg hit, ha] at ha2
        cases ha2
        rfl
    · exfalso
      rw [hA, hU] at hsave
      cases hsave
    · rw [heq]
      refine ⟨rfl, ?_⟩
      intro i a a2 ha ha2 k hasK
      dsimp only [setArticle] at ha2
      by_cases hit : t = i
      · subst hit
        rw [List.getElem?_set_self hlen] at ha2
        cases ha2
        have haa : articleAt s t = a := by
          rw [articleAt, List.getD_eq_getElem?_getD, ha]
          rfl
        simp only [hasOwn] at hasK
        obtain ⟨v, hvs⟩ := Option.isSome_iff_exists.mp hasK
        rw [rolledBackUpdate, haa, objGet_append_of_some _ hvs, hvs]
      · rw [List.getElem?_set, if_neg hit, ha] at ha2
        cases ha2
        rfl

/-- C5 amended, witness: with both key writes failing, a concrete update
of `title` fails and the pre-existing `title` is restored exactly. -/
theorem c5_persist_failure_restores_preexisting_witness :
    (envFailFail.okArticlesWrite && envFailFail.okUsersWrite) = false
    ∧ (updateArticle envFailFail exState exAgreeLS (JSId.num 1)
        [("title", JSVal.vstr "T2")]).1 = false
    ∧ objGet ((updateArticle envFailFail exState exAgreeLS (JSId.num 1)
        [("title", JSVal.vstr "T2")]).2.1.articles[0]?.getD []) "title"
      = objGet exArticle "title" := by
  refine ⟨rfl,
    (c5_persist_failure_restores_preexisting envFailFail exState exAgreeLS
      (JSId.num 1) [("title", JSVal.vstr "T2")] rfl).1, ?_⟩
  exact (c5_persist_failure_restores_preexisting envFailFail exState exAgreeLS
      (JSId.num 1) [("title", JSVal.vstr "T2")] rfl).2 0 exArticle
    ((updateArticle envFailFail exState exAgreeLS (JSId.num 1)
        [("title", JSVal.vstr "T2")]).2.1.articles[0]?.getD [])
    rfl (by rfl) "title" rfl

/- ### Status-update record lemmas -/

theorem jsRead_set_ne (o : Obj) {k k2 : String} (v : JSVal) (h : k ≠ k2) :
    jsRead (objSet o k v) k2 = jsRead o k2 := by
  rw [jsRead, jsRead, objGet_set_ne o v h]

theorem statusUpdated_eq (env : Env) (s : StoreState) (t : Nat) (newStatus : JSVal) :
    statusUpdated env s t newStatus =
      if (newStatus == JSVal.vstr "published"
          && !truthy (jsRead (articleAt s t) "publishDate")) = true
      then objSet (objSet (articleAt s t) "status" newStatus) "publishDate"
        (.vstr (isoDatePart env.nowIso))
      else objSet (articleAt s t) "status" newStatus := by
  simp only [statusUpdated]
  rw [jsRead_set_ne _ _ (by decide)]

theorem objGet_statusRolledBack_status (env : Env) (s : StoreState) (t : Nat)
    (newStatus : JSVal) :
    objGet (statusRolledBack env s t newStatus) "status"
      = some (jsRead (articleAt s t) "status") := by
  rw [statusRolledBack, objGet_set_self]

theorem objGet_statusRolledBack_pub_true (env : Env) (s : StoreState) (t : Nat)
    (newStatus : JSVal)
    (hcond : (newStatus == JSVal.vstr "published"
      && !truthy (jsRead (articleAt s t) "publishDate")) = true) :
    objGet (statusRolledBack env s t newStatus) "publishDate"
      = some (.vstr (isoDatePart env.nowIso)) := by
  rw [statusRolledBack, objGet_set_ne _ _ (by decide : "status" ≠ "publishDate"),
    statusUpdated_eq, if_pos hcond, objGet_set_self]

theorem objGet_statusRolledBack_pub_false (env : Env) (s : StoreState) (t : Nat)
    (newStatus : JSVal)
    (hcond : (newStatus == JSVal.vstr "published"
      && !truthy (jsRead (articleAt s t) "publishDate")) = false) :
    objGet (statusRolledBack env s t newStatus) "publishDate"
      = objGet (articleAt s t) "publishDate" := by
  rw [statusRolledBack, objGet_set_ne _ _ (by decide : "status" ≠ "publishDate"),
    statusUpdated_eq, if_neg (by simp [hcond]),
    objGet_set_ne _ _ (by decide : "status" ≠ "publishDate")]

theorem objGet_statusRolledBack_other (env : Env) (s : StoreState) (t : Nat)
    (newStatus : JSVal) {k : String} (h1 : k ≠ "status") (h2 : k ≠ "publishDate") :
    objGet (statusRolledBack env s t newStatus) k = objGet (articleAt s t) k := by
  rw [statusRolledBack, objGet_set_ne _ _ (Ne.symm h1), statusUpdated_eq]
  split
  · rw [objGet_set_ne _ _ (Ne.symm h2), objGet_set_ne _ _ (Ne.symm h1)]
  · rw [objGet_set_ne _ _ (Ne.symm h1)]

/- ### Claim C7 -/

/-- C7: when `updateArticleStatus` fails to persist, the call returns
failure with only the status write undone: the status equals its
pre-call value again, while a `publishDate` that the call auto-set on
publishing (pre-call value falsy) is retained as the date part of the
current timestamp, and in all other cases `publishDate` (and every
other field) keeps its pre-call value. -/
theorem c7_status_persist_failure (env : Env) (s : StoreState) (ls : LocalStorage)
    (idArg : JSId) (newStatus : JSVal) (t : Nat) (a : Obj)
    (hsave : (env.okArticlesWrite && env.okUsersWrite) = false)
    (hfound : getArticleByIdIdx s idArg = some t)
    (hstatus : statusValues.contains newStatus = true)
    (ha : s.articles[t]? = some a)
    (hso : hasOwn a "status" = true) :
    (updateArticleStatus env s ls idArg newStatus).1 = false
    ∧ ∃ a2, (updateArticleStatus env s ls idArg newStatus).2.1.articles[t]? = some a2
      ∧ objGet a2 "status" = objGet a "status"
      ∧ ((newStatus == JSVal.vstr "published"
            && !truthy (jsRead a "publishDate")) = true →
          objGet a2 "publishDate" = some (.vstr (isoDatePart env.nowIso)))
      ∧ ((newStatus == JSVal.vstr "published"
            && !truthy (jsRead a "publishDate")) = false →
          objGet a2 "publishDate" = objGet a "publishDate")
      ∧ ∀ k, k ≠ "status" → k ≠ "publishDate" → objGet a2 k = objGet a k := by
  have haa : articleAt s t = a := by
    rw [articleAt, List.getD_eq_getElem?_getD, ha]
    rfl
  rcases updateArticleStatus_cases env s ls idArg newStatus with
    ⟨hreason, heq⟩ | ⟨t2, hs2, hf2, hlen, hcase⟩
  · rcases hreason with h | h
    · rw [hstatus] at h
      cases h
    · rw [hfound] at h
      cases h
  · have ht : t2 = t := by
      have h12 := hfound.symm.trans hf2
      exact (Option.some.inj h12).symm
    subst ht
    rcases hcase with ⟨hA, hU, heq⟩ | ⟨hf3, heq⟩
    · exfalso
      rw [hA, hU] at hsave
      cases hsave
    · rw [heq]
      refine ⟨rfl, statusRolledBack env s t2 newStatus, ?_, ?_, ?_, ?_, ?_⟩
      · dsimp only [setArticle]
        rw [List.getElem?_set_self hlen]
      · rw [objGet_statusRolledBack_status, haa]
        simp only [hasOwn] at hso
        obtain ⟨v, hv⟩ := Option.isSome_iff_exists.mp hso
        rw [jsRead, hv]
        rfl
      · intro hcond
        rw [haa.symm] at hcond
        exact objGet_statusRolledBack_pub_true env s t2 newStatus hcond
      · intro hcond
        rw [haa.symm] at hcond
        rw [objGet_statusRolledBack_pub_false env s t2 newStatus hcond, haa]
      · intro k h1 h2
        rw [objGet_statusRolledBack_other env s t2 newStatus h1 h2, haa]

/-- C7 witness: publishing the draft fixture with both key writes
failing returns failure; the status is back to draft, and the auto-set
`publishDate` (the date part of the clock) is retained. -/
theorem c7_status_persist_failure_witness :
    (updateArticleStatus envFailFail exState exAgreeLS (JSId.num 1)
        (JSVal.vstr "published")).1 = false
    ∧ ∃ a2, (updateArticleStatus envFailFail exState exAgreeLS (JSId.num 1)
          (JSVal.vstr "published")).2.1.articles[0]? = some a2
      ∧ objGet a2 "status" = objGet exArticle "status"
      ∧ ((JSVal.vstr "published" == JSVal.vstr "published"
            && !truthy (jsRead exArticle "publishDate")) = true →
          objGet a2 "publishDate" = some (.vstr (isoDatePart envFailFail.nowIso)))
      ∧ ((JSVal.vstr "published" == JSVal.vstr "published"
            && !truthy (jsRead exArticle "publishDate")) = false →
          objGet a2 "publishDate" = objGet exArticle "publishDate")
      ∧ ∀ k, k ≠ "status" → k ≠ "publishDate" → objGet a2 k = objGet exArticle k :=
  c7_status_persist_failure envFailFail exState exAgreeLS (JSId.num 1)
    (JSVal.vstr "published") 0 exArticle rfl (by rfl) rfl (by rfl) rfl

/- ### Lookup stability under a status update -/

theorem findIdx?_set_found {l : List Obj} {p : Obj → Bool} {t : Nat} {x : Obj}
    (h : l.findIdx? p = some t) (hx : p x = true) :
    (l.set t x).findIdx? p = some t := by
  rw [List.findIdx?_eq_some_iff_getElem] at h ⊢
  obtain ⟨hlen, hp, hmin⟩ := h
  have hlen2 : t < (l.set t x).length := by simpa using hlen
  refine ⟨hlen2, ?_, ?_⟩
  · rw [List.getElem_set_self hlen2]
    exact hx
  · intro j hj
    rw [List.getElem_set_ne (by omega : t ≠ j)]
    exact hmin j hj

theorem jsRead_statusUpdated_id (env : Env) (s : StoreState) (t : Nat)
    (newStatus : JSVal) :
    jsRead (statusUpdated env s t newStatus) "id" = jsRead (articleAt s t) "id" := by
  rw [statusUpdated_eq]
  split
  · rw [jsRead_set_ne _ _ (by decide : "publishDate" ≠ "id"),
      jsRead_set_ne _ _ (by decide : "status" ≠ "id")]
  · rw [jsRead_set_ne _ _ (by decide : "status" ≠ "id")]

theorem articleAt_getElem {s : StoreState} {t : Nat} (h : t < s.articles.length) :
    articleAt s t = s.articles[t] := by
  rw [articleAt, List.getD_eq_getElem?_getD, List.getElem?_eq_getElem h]
  rfl

theorem getArticleByIdIdx_set_same_id (s : StoreState) (idArg : JSId) (t : Nat)
    (x : Obj) (hfound : getArticleByIdIdx s idArg = some t)
    (hid : jsRead x "id" = jsRead (articleAt s t) "id") :
    getArticleByIdIdx (setArticle s t x) idArg = some t := by
  rw [getArticleByIdIdx] at hfound ⊢
  cases hp : parseIntArg idArg with
  | none =>
      rw [hp] at hfound
      simp at hfound
  | some n =>
      rw [hp] at hfound
      dsimp only [setArticle] at hfound ⊢
      apply findIdx?_set_found hfound
      obtain ⟨h1, h2, -⟩ := List.findIdx?_eq_some_iff_getElem.mp hfound
      rw [hid, articleAt_getElem h1]
      exact h2

theorem setArticle_getElem? (s : StoreState) (t : Nat) (x : Obj)
    (h : t < s.articles.length) :
    (setArticle s t x).articles[t]? = some x := by
  dsimp only [setArticle]
  exact List.getElem?_set_self h

theorem articleAt_setArticle_self {s : StoreState} {t : Nat} (x : Obj)
    (h : t < s.articles.length) :
    articleAt (setArticle s t x) t = x := by
  rw [articleAt, setArticle]
  dsimp only
  rw [List.getD_eq_getElem?_getD, List.getElem?_set_self h]
  rfl

/- ### Claim C8 -/

/-- C8: publishing an article whose `publishDate` is unset (falsy), with
persistence succeeding, yields status `published` and `publishDate`
equal to the date component (the text before the first T) of the
current ISO timestamp; a second successful publish call, under any
clock, leaves that `publishDate` unchanged. -/
theorem c8_publish_sets_date_once (env env2 : Env) (s : StoreState)
    (ls : LocalStorage) (idArg : JSId) (t : Nat) (a : Obj) (d : String)
    (hA : env.okArticlesWrite = true) (hU : env.okUsersWrite = true)
    (hA2 : env2.okArticlesWrite = true) (hU2 : env2.okUsersWrite = true)
    (hfound : getArticleByIdIdx s idArg = some t)
    (ha : s.articles[t]? = some a)
    (hpd : truthy (jsRead a "publishDate") = false)
    (hd : isoDatePart env.nowIso = d) (hdne : d ≠ "") :
    ∃ s1 ls1, updateArticleStatus env s ls idArg (.vstr "published") = (true, s1, ls1)
      ∧ ∃ a1, s1.articles[t]? = some a1
        ∧ objGet a1 "status" = some (.vstr "published")
        ∧ objGet a1 "publishDate" = some (.vstr d)
        ∧ ∃ s2 ls2,
            updateArticleStatus env2 s1 ls1 idArg (.vstr "published") = (true, s2, ls2)
          ∧ ∃ a2, s2.articles[t]? = some a2
            ∧ objGet a2 "status" = some (.vstr "published")
            ∧ objGet a2 "publishDate" = some (.vstr d) := by
  have haa : articleAt s t = a := by
    rw [articleAt, List.getD_eq_getElem?_getD, ha]
    rfl
  have hcond1 : (JSVal.vstr "published" == JSVal.vstr "published"
      && !truthy (jsRead (articleAt s t) "publishDate")) = true := by
    rw [haa, hpd]
    rfl
  rcases updateArticleStatus_cases env s ls idArg (.vstr "published") with
    ⟨hreason, heq⟩ | ⟨t2, hs2, hf2, hlen, hcase⟩
  · rcases hreason with h | h
    · exact absurd h (by decide)
    · rw [hfound] at h
      cases h
  · have ht : t2 = t := (Option.some.inj (hfound.symm.trans hf2)).symm
    subst ht
    rcases hcase with ⟨-, -, heq⟩ | ⟨hfail, heq⟩
    · refine ⟨_, _, heq, statusUpdated env s t2 (.vstr "published"), ?_, ?_, ?_, ?_⟩
      · exact setArticle_getElem? _ _ _ hlen
      · rw [statusUpdated_eq, if_pos hcond1,
          objGet_set_ne _ _ (by decide : "publishDate" ≠ "status"), objGet_set_self]
      · rw [statusUpdated_eq, if_pos hcond1, objGet_set_self, hd]
      · -- second call on s1 := setArticle s t2 (statusUpdated ...)
        have ha1pd : objGet (statusUpdated env s t2 (.vstr "published")) "publishDate"
            = some (.vstr d) := by
          rw [statusUpdated_eq, if_pos hcond1, objGet_set_self, hd]
        have hfound2 : getArticleByIdIdx
            (setArticle s t2 (statusUpdated env s t2 (.vstr "published"))) idArg
            = some t2 :=
          getArticleByIdIdx_set_same_id s idArg t2 _ hfound
            (jsRead_statusUpdated_id env s t2 _)
        have haa1 : articleAt (setArticle s t2 (statusUpdated env s t2 (.vstr "published"))) t2
            = statusUpdated env s t2 (.vstr "published") :=
          articleAt_setArticle_self _ hlen
        have hcond2 : (JSVal.vstr "published" == JSVal.vstr "published"
            && !truthy (jsRead (articleAt
              (setArticle s t2 (statusUpdated env s t2 (.vstr "published"))) t2)
              "publishDate")) = false := by
          rw [haa1, jsRead, ha1pd]
          show (true && !truthy (JSVal.vstr d)) = false
          have : truthy (JSVal.vstr d) = true := by
            simp [truthy, hdne]
          rw [this]
          rfl
        rcases updateArticleStatus_cases env2
            (setArticle s t2 (statusUpdated env s t2 (.vstr "published")))
            (savedLS (setArticle s t2 (statusUpdated env s t2 (.vstr "published"))))
            idArg (.vstr "published") with
          ⟨hreason2, heq2⟩ | ⟨t3, hs3, hf3, hlen2, hcase2⟩
        · rcases hreason2 with h | h
          · exact absurd h (by decide)
          · rw [hfound2] at h
            cases h
        · have ht3 : t3 = t2 := (Option.some.inj (hfound2.symm.trans hf3)).symm
          subst ht3
          rcases hcase2 with ⟨-, -, heq2⟩ | ⟨hfail2, heq2⟩
          · refine ⟨_, _, heq2,
              statusUpdated env2 (setArticle s t3 (statusUpdated env s t3
                (JSVal.vstr "published"))) t3 (JSVal.vstr "published"), ?_, ?_, ?_⟩
            · exact setArticle_getElem? _ _ _ hlen2
            · rw [statusUpdated_eq, if_neg (by intro hcc; rw [hcond2] at hcc; cases hcc), objGet_set_self]
            · rw [statusUpdated_eq, if_neg (by intro hcc; rw [hcond2] at hcc; cases hcc),
                objGet_set_ne _ _ (by decide : "status" ≠ "publishDate"), haa1, ha1pd]
          · exfalso
            rw [hA2, hU2] at hfail2
            cases hfail2
    · exfalso
      rw [hA, hU] at hfail
      cases hfail

/-- C8 witness: publishing the draft fixture (no `publishDate`) with the
clock at 2026-10-11T08:00:00.000Z sets publishDate "2026-10-11"; a
second publish call leaves it unchanged. -/
theorem c8_publish_sets_date_once_witness :
    ∃ s1 ls1, updateArticleStatus envOkOk exState exAgreeLS (JSId.num 1)
        (.vstr "published") = (true, s1, ls1)
      ∧ ∃ a1, s1.articles[0]? = some a1
        ∧ objGet a1 "status" = some (.vstr "published")
        ∧ objGet a1 "publishDate" = some (.vstr "2026-10-11")
        ∧ ∃ s2 ls2, updateArticleStatus envOkOk s1 ls1 (JSId.num 1)
              (.vstr "published") = (true, s2, ls2)
          ∧ ∃ a2, s2.articles[0]? = some a2
            ∧ objGet a2 "status" = some (.vstr "published")
            ∧ objGet a2 "publishDate" = some (.vstr "2026-10-11") :=
  c8_publish_sets_date_once envOkOk envOkOk exState exAgreeLS (JSId.num 1) 0
    exArticle "2026-10-11" rfl rfl rfl rfl (by rfl) rfl rfl (by rfl) (by decide)

/- ### Claim C1 (amended agreement) -/

theorem saveToLocalStorage_noop (env : Env) (s1 : StoreState) (ls : LocalStorage)
    (hA : env.okArticlesWrite = false) (hU : env.okUsersWrite = false) :
    (saveToLocalStorage env s1 ls).2 = ls := by
  simp [saveToLocalStorage, hA, hU]

/-- C1 amended: (i) whenever a write operation reports success, the
persisted keys hold exactly the new in-memory collections, and (ii)
when both key writes fail, `addArticle`, `deleteArticle` and
`importData` return with the in-memory state and the persistent store
both exactly as before the call.  (The original claim fails in the
remaining situations: a mixed outcome persists the succeeding key at
the new state while memory rolls back — see the counterexample — and
the in-place `Object.assign`/`publishDate` partial rollbacks of
`updateArticle`/`updateArticleStatus` can leave rolled-back in-memory
records carrying fields the persisted state lacks.) -/
theorem c1_agreement (env : Env) (s : StoreState) (ls : LocalStorage) :
    (∀ op, (runWriteOp env s ls op).1 = true →
      (runWriteOp env s ls op).2.2 = savedLS (runWriteOp env s ls op).2.1)
    ∧ (env.okArticlesWrite = false → env.okUsersWrite = false →
        (∀ d, (addArticle env s ls d).2 = (s, ls))
        ∧ (∀ idArg, (deleteArticle env s ls idArg).2 = (s, ls))
        ∧ (∀ data, (importData env s ls data).2 = (s, ls))) := by
  constructor
  · intro op hok
    cases op with
    | add d =>
        rcases addArticle_cases env s ls d with ⟨hv, heq⟩ | ⟨hv, hA, hU, heq⟩ | ⟨hv, hf, heq⟩
        · dsimp only [runWriteOp] at hok ⊢
          rw [heq] at hok
          cases hok
        · dsimp only [runWriteOp]
          rw [heq]
        · dsimp only [runWriteOp] at hok ⊢
          rw [heq] at hok
          cases hok
    | upd idArg u =>
        rcases updateArticle_cases env s ls idArg u with heq | ⟨t, -, -, hcase⟩
        · dsimp only [runWriteOp] at hok ⊢
          rw [heq] at hok
          cases hok
        · rcases hcase with ⟨-, heq⟩ | ⟨-, -, -, heq⟩ | ⟨-, -, heq⟩
          · dsimp only [runWriteOp] at hok ⊢
            rw [heq] at hok
            cases hok
          · dsimp only [runWriteOp]
            rw [heq]
          · dsimp only [runWriteOp] at hok ⊢
            rw [heq] at hok
            cases hok
    | updStatus idArg st =>
        rcases updateArticleStatus_cases env s ls idArg st with ⟨-, heq⟩ | ⟨t, -, -, -, hcase⟩
        · dsimp only [runWriteOp] at hok ⊢
          rw [heq] at hok
          cases hok
        · rcases hcase with ⟨-, -, heq⟩ | ⟨-, heq⟩
          · dsimp only [runWriteOp]
            rw [heq]
          · dsimp only [runWriteOp] at hok ⊢
            rw [heq] at hok
            cases hok
    | del idArg =>
        rcases deleteArticle_cases env s ls idArg with heq | ⟨t, -, hcase⟩
        · dsimp only [runWriteOp] at hok ⊢
          rw [heq] at hok
          cases hok
        · rcases hcase with ⟨-, -, heq⟩ | ⟨-, heq⟩
          · dsimp only [runWriteOp]
            rw [heq]
          · dsimp only [runWriteOp] at hok ⊢
            rw [heq] at hok
            cases hok
    | imp data =>
        rcases importData_cases env s ls data with heq | ⟨arts, usrs, -, -, -, hcase⟩
        · dsimp only [runWriteOp] at hok ⊢
          rw [heq] at hok
          cases hok
        · rcases hcase with ⟨-, -, heq⟩ | ⟨-, heq⟩
          · dsimp only [runWriteOp]
            rw [heq]
          · dsimp only [runWriteOp] at hok ⊢
            rw [heq] at hok
            cases hok
  · intro hA hU
    refine ⟨fun d => ?_, fun idArg => ?_, fun data => ?_⟩
    · rcases addArticle_cases env s ls d with ⟨hv, heq⟩ | ⟨hv, hA2, hU2, heq⟩ | ⟨hv, hf, heq⟩
      · rw [heq]
      · rw [hA2] at hA
        cases hA
      · rw [heq, saveToLocalStorage_noop env _ ls hA hU]
    · rcases deleteArticle_cases env s ls idArg with heq | ⟨t, -, hcase⟩
      · rw [heq]
      · rcases hcase with ⟨hA2, -, heq⟩ | ⟨-, heq⟩
        · rw [hA2] at hA
          cases hA
        · rw [heq, saveToLocalStorage_noop env _ ls hA hU]
    · rcases importData_cases env s ls data with heq | ⟨arts, usrs, -, -, -, hcase⟩
      · rw [heq]
      · rcases hcase with ⟨hA2, -, heq⟩ | ⟨-, heq⟩
        · rw [hA2] at hA
          cases hA
        · rw [heq, saveToLocalStorage_noop env _ ls hA hU]

/-- C1 amended, witness: a successful `addArticle` leaves the persisted
keys holding the new collections; with both writes failing, the call
leaves store and persistence exactly as before. -/
theorem c1_agreement_witness :
    (runWriteOp envOkOk exState exAgreeLS (.add exNewData)).1 = true
    ∧ (runWriteOp envOkOk exState exAgreeLS (.add exNewData)).2.2
        = savedLS (runWriteOp envOkOk exState exAgreeLS (.add exNewData)).2.1
    ∧ (addArticle envFailFail exState exAgreeLS exNewData).2 = (exState, exAgreeLS) := by
  refine ⟨rfl, (c1_agreement envOkOk exState exAgreeLS).1 (.add exNewData) rfl, ?_⟩
  exact ((c1_agreement envFailFail exState exAgreeLS).2 rfl rfl).1 exNewData

/- ### Validity preservation lemmas -/

theorem isValidArticle_iff (a : Obj) :
    isValidArticle a = true ↔ (∀ f ∈ requiredArticleFields, hasOwn a f = true)
      ∧ statusValues.contains (jsRead a "status") = true
      ∧ (match jsRead a "authorId" with
          | .vnum _ => true
          | _ => false) = true := by
  rw [isValidArticle]
  simp [Bool.and_eq_true, List.all_eq_true, and_assoc]

theorem jsRead_append_of_hasOwn {a : Obj} (x : Obj) {k : String}
    (h : hasOwn a k = true) : jsRead (x ++ a) k = jsRead a k := by
  simp only [hasOwn] at h
  obtain ⟨v, hv⟩ := Option.isSome_iff_exists.mp h
  rw [jsRead, jsRead, objGet_append_of_some x hv, hv]

theorem isValidArticle_append_right {a : Obj} (x : Obj)
    (hv : isValidArticle a = true) : isValidArticle (x ++ a) = true := by
  rw [isValidArticle_iff] at hv ⊢
  obtain ⟨h1, h2, h3⟩ := hv
  have hst : hasOwn a "status" = true := h1 _ (by decide)
  have hau : hasOwn a "authorId" = true := h1 _ (by decide)
  refine ⟨?_, ?_, ?_⟩
  · intro f hf
    rw [hasOwn_append, h1 f hf]
    simp
  · rw [jsRead_append_of_hasOwn x hst]
    exact h2
  · rw [jsRead_append_of_hasOwn x hau]
    exact h3

theorem jsRead_append_single_ne (t : Obj) {k1 k : String} (v : JSVal)
    (h : k1 ≠ k) : jsRead (t ++ [(k1, v)]) k = jsRead t k := by
  have hn : objGet ([(k1, v)] : Obj) k = none := by
    simp only [objGet, List.foldl_cons, List.foldl_nil]
    rw [if_neg h]
  rw [jsRead, jsRead, objGet_append_of_none _ hn]

theorem isValidArticle_append_createdAt {d : Obj} (v : JSVal)
    (hv : isValidArticle d = true) :
    isValidArticle (d ++ [("createdAt", v)]) = true := by
  rw [isValidArticle_iff] at hv ⊢
  obtain ⟨h1, h2, h3⟩ := hv
  refine ⟨?_, ?_, ?_⟩
  · intro f hf
    rw [hasOwn_append, h1 f hf]
    simp
  · rw [jsRead_append_single_ne _ _ (by decide : "createdAt" ≠ "status")]
    exact h2
  · rw [jsRead_append_single_ne _ _ (by decide : "createdAt" ≠ "authorId")]
    exact h3

theorem isValidArticle_builtArticle (env : Env) (s : StoreState) {d : Obj}
    (hv : isValidArticle d = true) :
    isValidArticle (builtArticle env s d) = true := by
  rw [builtArticle]
  exact isValidArticle_append_createdAt _ (isValidArticle_append_right _ hv)

theorem isValidArticle_objSet_status {a : Obj} (hva : isValidArticle a = true)
    {v : JSVal} (hv : statusValues.contains v = true) :
    isValidArticle (objSet a "status" v) = true := by
  rw [isValidArticle_iff] at hva ⊢
  obtain ⟨h1, h2, h3⟩ := hva
  refine ⟨?_, ?_, ?_⟩
  · intro f hf
    rw [objSet, hasOwn_append, h1 f hf]
    simp
  · rw [jsRead, objGet_set_self]
    exact hv
  · rw [jsRead, objGet_set_ne _ _ (by decide : "status" ≠ "authorId")]
    exact h3

theorem isValidArticle_objSet_other {a : Obj} (hva : isValidArticle a = true)
    {k : String} (h1 : k ≠ "status") (h2 : k ≠ "authorId") (v : JSVal) :
    isValidArticle (objSet a k v) = true := by
  rw [isValidArticle_iff] at hva ⊢
  obtain ⟨g1, g2, g3⟩ := hva
  refine ⟨?_, ?_, ?_⟩
  · intro f hf
    rw [objSet, hasOwn_append, g1 f hf]
    simp
  · rw [jsRead, objGet_set_ne _ _ h1]
    exact g2
  · rw [jsRead, objGet_set_ne _ _ h2]
    exact g3

theorem isValidArticle_statusUpdated (env : Env) (s : StoreState) (t : Nat)
    {newStatus : JSVal} (hva : isValidArticle (articleAt s t) = true)
    (hns : statusValues.contains newStatus = true) :
    isValidArticle (statusUpdated env s t newStatus) = true := by
  rw [statusUpdated_eq]
  split
  · exact isValidArticle_objSet_other (isValidArticle_objSet_status hva hns)
      (by decide) (by decide) _
  · exact isValidArticle_objSet_status hva hns

theorem isValidArticle_statusRolledBack (env : Env) (s : StoreState) (t : Nat)
    {newStatus : JSVal} (hva : isValidArticle (articleAt s t) = true)
    (hns : statusValues.contains newStatus = true) :
    isValidArticle (statusRolledBack env s t newStatus) = true := by
  rw [statusRolledBack]
  exact isValidArticle_objSet_status
    (isValidArticle_statusUpdated env s t hva hns)
    ((isValidArticle_iff _).mp hva).2.1

/- ### Claim C3 (amended preservation) -/

/-- C3 amended: the shape invariant is preserved by every write
operation — in every outcome (success, validation failure, persist
failure with rollback), a store whose articles all satisfy the shape
check still satisfies it after the call.  (The original claim fails at
initialization: the load path checks only that the persisted value is a
sequence, so invalid records can enter the store from persistence —
see the counterexample.) -/
theorem c3_writes_preserve_validity (env : Env) (s : StoreState) (ls : LocalStorage)
    (op : WriteOp)
    (hvalid : ∀ a ∈ s.articles, isValidArticle a = true) :
    ∀ a ∈ (runWriteOp env s ls op).2.1.articles, isValidArticle a = true := by
  cases op with
  | add d =>
      rcases addArticle_cases env s ls d with ⟨hv, heq⟩ | ⟨hv, hA, hU, heq⟩ | ⟨hv, hf, heq⟩
      · dsimp only [runWriteOp]
        rw [heq]
        exact hvalid
      · dsimp only [runWriteOp]
        rw [heq]
        intro a ha
        rcases List.mem_append.mp ha with h | h
        · exact hvalid a h
        · rw [List.mem_singleton] at h
          subst h
          exact isValidArticle_builtArticle env s hv
      · dsimp only [runWriteOp]
        rw [heq]
        exact hvalid
  | upd idArg u =>
      rcases updateArticle_cases env s ls idArg u with heq | ⟨t, hidx, hlen, hcase⟩
      · dsimp only [runWriteOp]
        rw [heq]
        exact hvalid
      · have hmem : articleAt s t ∈ s.articles := by
          rw [articleAt_getElem hlen]
          exact List.getElem_mem hlen
        rcases hcase with ⟨hv, heq⟩ | ⟨hv, -, -, heq⟩ | ⟨hv, -, heq⟩
        · dsimp only [runWriteOp]
          rw [heq]
          intro a ha
          dsimp only [setArticle] at ha
          rcases List.mem_or_eq_of_mem_set ha with h | h
          · exact hvalid a h
          · subst h
            exact isValidArticle_append_right _ (hvalid _ hmem)
        · dsimp only [runWriteOp]
          rw [heq]
          intro a ha
          dsimp only [setArticle] at ha
          rcases List.mem_or_eq_of_mem_set ha with h | h
          · exact hvalid a h
          · subst h
            exact hv
        · dsimp only [runWriteOp]
          rw [heq]
          intro a ha
          dsimp only [setArticle] at ha
          rcases List.mem_or_eq_of_mem_set ha with h | h
          · exact hvalid a h
          · subst h
            exact isValidArticle_append_right _ (hvalid _ hmem)
  | updStatus idArg st =>
      rcases updateArticleStatus_cases env s ls idArg st with
        ⟨-, heq⟩ | ⟨t, hns, hf2, hlen, hcase⟩
      · dsimp only [runWriteOp]
        rw [heq]
        exact hvalid
      · have hmem : articleAt s t ∈ s.articles := by
          rw [articleAt_getElem hlen]
          exact List.getElem_mem hlen
        rcases hcase with ⟨-, -, heq⟩ | ⟨-, heq⟩
        · dsimp only [runWriteOp]
          rw [heq]
          intro a ha
          dsimp only [setArticle] at ha
          rcases List.mem_or_eq_of_mem_set ha with h | h
          · exact hvalid a h
          · subst h
            exact isValidArticle_statusUpdated env s t (hvalid _ hmem) hns
        · dsimp only [runWriteOp]
          rw [heq]
          intro a ha
          dsimp only [setArticle] at ha
          rcases List.mem_or_eq_of_mem_set ha with h | h
          · exact hvalid a h
          · subst h
            exact isValidArticle_statusRolledBack env s t (hvalid _ hmem) hns
  | del idArg =>
      rcases deleteArticle_cases env s ls idArg with heq | ⟨t, hlen, hcase⟩
      · dsimp only [runWriteOp]
        rw [heq]
        exact hvalid
      · rcases hcase with ⟨-, -, heq⟩ | ⟨-, heq⟩
        · dsimp only [runWriteOp]
          rw [heq]
          intro a ha
          exact hvalid a ((List.eraseIdx_sublist s.articles t).subset ha)
        · dsimp only [runWriteOp]
          rw [heq]
          exact hvalid
  | imp data =>
      rcases importData_cases env s ls data with heq | ⟨arts, usrs, -, hva, -, hcase⟩
      · dsimp only [runWriteOp]
        rw [heq]
        exact hvalid
      · rcases hcase with ⟨-, -, heq⟩ | ⟨-, heq⟩
        · dsimp only [runWriteOp]
          rw [heq]
          exact List.all_eq_true.mp hva
        · dsimp only [runWriteOp]
          rw [heq]
          exact hvalid

/-- C3 amended, witness: after a concrete successful `addArticle` on the
valid fixture store, every stored article still passes the shape
check. -/
theorem c3_writes_preserve_validity_witness :
    ((runWriteOp envOkOk exState exAgreeLS (.add exNewData)).2.1.articles.all
      isValidArticle) = true := by
  rw [List.all_eq_true]
  exact fun a ha => c3_writes_preserve_validity envOkOk exState exAgreeLS
    (.add exNewData) (by decide) a ha

/- ### Claim C4 (amended aliasing) -/

/-- C4 amended: `getArticleById` returns one of the store's own record
references, not an independent copy — the returned reference is an
element of the internal `articles` array, and writing any field through
it makes the written value visible in the store's article collection.
(`exportData` likewise returns the internal arrays themselves, and
`addArticle` the pushed record; only the arrays returned by
`getArticles`/`getUsers` are fresh.) -/
theorem c4_returned_ref_aliases_store (s : RefModel.RefState) (idArg : JSId)
    (r : Nat) (h : RefModel.getArticleById s idArg = some r) :
    r ∈ s.articleRefs
    ∧ ∀ k v, ∃ a, a ∈ RefModel.viewArticles (RefModel.setRefField s r k v)
      ∧ objGet a k = some v := by
  rw [RefModel.getArticleById] at h
  cases hp : parseIntArg idArg with
  | none =>
      rw [hp] at h
      cases h
  | some n =>
      rw [hp] at h
      have hmem := List.mem_of_find?_eq_some h
      have hpred := List.find?_some h
      refine ⟨hmem, fun k v => ?_⟩
      have hr : r < s.heap.length := by
        by_contra hge
        push_neg at hge
        have hnil : RefModel.readRef s.heap r = [] := by
          rw [RefModel.readRef, List.getD_eq_getElem?_getD, List.getElem?_eq_none hge]
          rfl
        rw [hnil] at hpred
        have hfalse : (jsRead ([] : Obj) "id" == JSVal.vnum n) = false := rfl
        rw [hfalse] at hpred
        cases hpred
      refine ⟨RefModel.readRef (RefModel.setRefField s r k v).heap r,
        List.mem_map_of_mem _ hmem, ?_⟩
      dsimp only [RefModel.setRefField, RefModel.readRef]
      rw [List.getD_eq_getElem?_getD, List.getElem?_set_self hr]
      exact objGet_set_self (s.heap.getD r []) k v

/-- C4 amended, witness: in the fixture heap store, the reference found
for id 1 is the store's own element 0, and writing `title` through it
is visible in the store's collection. -/
theorem c4_returned_ref_aliases_store_witness :
    0 ∈ exRefState.articleRefs
    ∧ ∃ a, a ∈ RefModel.viewArticles
        (RefModel.setRefField exRefState 0 "title" (.vstr "HACK"))
      ∧ objGet a "title" = some (.vstr "HACK") := by
  have h := c4_returned_ref_aliases_store exRefState (.num 1) 0 (by rfl)
  exact ⟨h.1, h.2 "title" (.vstr "HACK")⟩
